import Mathlib

/-
Shallow embedding of the evio-lite event loop (src/evio.go, plus the Linux
poller in src/unnamed/part_000 and the BSD poller at the end of src/evio.go).

Conventions of the embedding:
- Go byte slices are Lists of Nat together with an explicit capacity field
  where cap(...) matters (Go append keeps the backing array when there is
  room and otherwise grows it; only cap >= len is relied upon).
- Go int values that the code can drive negative (the output write index
  oidx, syscall return values) are Int.
- The Go syscall wrappers (syscall.Write, syscall.Read, EpollWait, Kevent)
  return n = -1 together with a non-nil error; this convention is part of
  the Go runtime and is reflected where the code adds n to a cursor or
  loops i < n.
- A nil Go map lookup returns the zero value; for conns (map[int]*conn)
  that zero value is a nil pointer, and a field access through it is a
  runtime panic. The dispatch embedding therefore maps a missing key to a
  panicked outcome.
- The poller registration state of a connection is tracked by the write
  flag of the conn structure, exactly as the code pairs every
  modReadWrite/modRead call with an update of c.write (the flag is the
  code's own record of the registration).
-/

namespace EvioLite

/-- Action mirrors the Go enumeration None, Close, Shutdown (iota 0, 1, 2). -/
inductive Action where
  | None
  | Close
  | Shutdown
deriving DecidableEq, Repr

/-- Numeric value of an Action, as the Go int constants 0, 1, 2; the code
compares actions with < and >= on these values. -/
def Action.val : Action → Nat
  | Action.None => 0
  | Action.Close => 1
  | Action.Shutdown => 2

/-- Embedding of the Go struct conn (src/evio.go lines 77-89). out is the
output buffer contents, outCap the capacity of its backing array, oidx the
output write index, write the write-events flag, and poll records whether
c.poll is non-nil (it is set to nil when the connection is finalized). -/
structure conn where
  write : Bool
  fd : Int
  oidx : Int
  out : List Nat
  outCap : Nat
  action : Action
  poll : Bool
deriving DecidableEq, Repr

/-- Capacity of a Go slice after append: unchanged when there is room,
otherwise grown to at least the needed length (the exact growth policy is
runtime-defined; nothing below depends on more than cap >= len). -/
def appendCap (cp len added : Nat) : Nat :=
  if len + added ≤ cp then cp else max (len + added) (2 * cp)

/-- conn.Close (src/evio.go lines 91-102): no-op when poll is nil; raise the
action from None to Close; register for write events when not registered. -/
def conn.Close (c : conn) : conn :=
  if c.poll = false then c
  else
    let c1 := if c.action = Action.None then { c with action := Action.Close } else c
    if c1.write = false then { c1 with write := true } else c1

/-- conn.Write (src/evio.go lines 104-115): no-op when poll is nil or the
action is not None; otherwise append the data to the output buffer and, when
the write flag is clear, register for write events and set the flag. The
registration step does not depend on the data being non-empty. -/
def conn.Write (c : conn) (data : List Nat) : conn :=
  if c.poll = false then c
  else if c.action = Action.None then
    let c1 := { c with out := c.out ++ data,
                       outCap := appendCap c.outCap c.out.length data.length }
    if c1.write = false then { c1 with write := true } else c1
  else c

/-- Outcome of one syscall.Write inside the drain loop: ok n bytes written,
would-block, or another error. -/
inductive WriteRes where
  | ok (n : Nat)
  | eagain
  | err
deriving DecidableEq, Repr

/-- Value n returned by the Go syscall.Write wrapper together with the
error: n = -1 whenever the error is non-nil (Go syscall convention). -/
def writeRet : WriteRes → Int
  | WriteRes.ok n => (n : Int)
  | WriteRes.eagain => -1
  | WriteRes.err => -1

/-- Outcome of the drain branch: the loop finished (full drain or non-EAGAIN
error) and ran the cleanup, or the slice expression c.out[c.oidx:] paniced,
or the supplied trace of syscall outcomes ran out while the loop was still
going (the loop was about to issue yet another write syscall). -/
inductive DrainOut where
  | finished (c : conn)
  | panicked
  | starved
deriving DecidableEq, Repr

/-- Validity of the Go slice expression c.out[c.oidx:]: it panics unless
0 <= oidx <= len(out). -/
def sliceBad (c : conn) : Prop := c.oidx < 0 ∨ (c.out.length : Int) < c.oidx

instance (c : conn) : Decidable (sliceBad c) := by
  unfold sliceBad; infer_instance

/-- Cleanup after the drain loop (src/evio.go lines 286-295): reset the
cursor to 0, release the buffer when its capacity exceeds 4096 and truncate
it to length 0 otherwise, and when the action is still None clear the write
flag and demote the poller registration to read-only. -/
def drainFinish (c : conn) : conn :=
  let c1 := { c with oidx := (0 : Int) }
  let c2 := if 4096 < c1.outCap then { c1 with out := ([] : List Nat), outCap := 0 }
            else { c1 with out := ([] : List Nat) }
  if c2.action = Action.None then { c2 with write := false } else c2

/-- Drain loop of the dispatch step (src/evio.go lines 270-295), driven by
the trace of outcomes of the successive syscall.Write calls. Each iteration
first evaluates the slice c.out[c.oidx:] (panic when out of range), then
issues the write. A non-EAGAIN error escalates the action to at least Close
and breaks out to the cleanup; any other outcome falls through to
oidx += n (with n = -1 on EAGAIN, per the syscall convention) and loops
again while oidx < len(out). -/
def drainLoop : List WriteRes → conn → DrainOut
  | [], c => if sliceBad c then DrainOut.panicked else DrainOut.starved
  | r :: rest, c =>
    if sliceBad c then DrainOut.panicked
    else
      match r with
      | WriteRes.err =>
        let c1 := if c.action.val < Action.Close.val then { c with action := Action.Close }
                  else c
        DrainOut.finished (drainFinish c1)
      | _ =>
        let c1 := { c with oidx := c.oidx + writeRet r }
        if c1.oidx < (c1.out.length : Int) then drainLoop rest c1
        else DrainOut.finished (drainFinish c1)

/-- Outcome of one syscall.Read in the read branch: ok with n > 0 bytes,
end of file (n = 0 with nil error), would-block, or another error. -/
inductive ReadRes where
  | ok (n : Nat)
  | eof
  | eagain
  | err
deriving DecidableEq, Repr

/-- Error handling of the read branch (src/evio.go lines 308-314): on an
error other than EAGAIN, or on a zero-byte read, set the action to Close and
skip the rest of the branch; on EAGAIN change nothing. Note that this path
does not touch the write flag or the poller registration. -/
def readEscalate (c : conn) (r : ReadRes) : conn :=
  match r with
  | ReadRes.eof => { c with action := Action.Close }
  | ReadRes.err => { c with action := Action.Close }
  | ReadRes.eagain => c
  | ReadRes.ok _ => c

/-- Handling of the (out, action) pair returned by the Opened callback
(src/evio.go lines 253-261) and by the Data callback (lines 315-323): when
the output is non-empty or the action is not None, append the output, store
the returned action unconditionally, set the write flag and promote the
poller registration to read-write; otherwise change nothing. -/
def handleCbReturn (c : conn) (outb : List Nat) (a : Action) : conn :=
  if 0 < outb.length ∨ a ≠ Action.None then
    { c with out := c.out ++ outb,
             outCap := appendCap c.outCap c.out.length outb.length,
             action := a,
             write := true }
  else c

/-- Result of the finalize branch (src/evio.go lines 296-306): the conn with
its poll pointer cleared (the fd is closed and the map entry deleted by the
caller), whether the Closed callback was invoked, and whether the shutdown
flag of the loop was set. -/
structure FinalizeResult where
  c : conn
  closedInvoked : Bool
  shutdownSet : Bool
deriving DecidableEq, Repr

/-- Finalize branch of the dispatch step (src/evio.go lines 296-306): clear
the poll pointer, close the fd, delete the map entry, and only when a Closed
callback is configured invoke it and set the shutdown flag when either the
connection's own action or the callback's returned action is Shutdown. The
shutdown test is nested inside the callback-configured test. -/
def finalizeStep (hasClosedCb : Bool) (cbRet : Action) (c : conn) : FinalizeResult :=
  let c1 := { c with poll := false }
  if hasClosedCb then
    { c := c1, closedInvoked := true,
      shutdownSet := decide (c1.action = Action.Shutdown ∨ cbRet = Action.Shutdown) }
  else
    { c := c1, closedInvoked := false, shutdownSet := false }

/-- Lookup of conns[fd] for the dispatch of a non-listener descriptor
(src/evio.go line 265). A Go map lookup with a missing key returns the zero
value, here a nil pointer. -/
def lookupConn (conns : List (Int × conn)) (fd : Int) : Option conn :=
  (conns.find? fun p => p.fst == fd).map Prod.snd

/-- Branch taken by the dispatch step for a ready non-listener descriptor. -/
inductive DispatchBranch where
  | drainB
  | finalizeB
  | readB
  | panicked
deriving DecidableEq, Repr

/-- Branch selection of the dispatch step (src/evio.go lines 265-296, 307):
c := conns[fd]; then len(c.out)-c.oidx > 0 chooses the drain branch,
c.action >= Close the finalize branch, and otherwise the read branch. When
the key is missing, c is a nil pointer and the very first test len(c.out)
dereferences it: a runtime panic, not a skip. -/
def dispatchBranch (conns : List (Int × conn)) (fd : Int) : DispatchBranch :=
  match lookupConn conns fd with
  | Option.none => DispatchBranch.panicked
  | Option.some c =>
    if 0 < (c.out.length : Int) - c.oidx then DispatchBranch.drainB
    else if Action.Close.val ≤ c.action.val then DispatchBranch.finalizeB
    else DispatchBranch.readB

/-- Outcome of the tick block at the bottom of a loop iteration: return nil
from Serve, or continue with the recorded lastTick and delay. -/
inductive TickOut where
  | ret
  | cont (lastTick delay : Int)
deriving DecidableEq, Repr

/-- Tick block (src/evio.go lines 326-339), times as nanosecond counts.
When now - lastTick exceeds the current delay: record lastTick := now,
adopt the delay returned by the Tick callback clamping negatives to 0, and
return nil from Serve when the returned action is Shutdown. -/
def tickStep (lastTick delay now cbDelay : Int) (cbAction : Action) : TickOut :=
  if delay < now - lastTick then
    let d1 := if cbDelay < 0 then 0 else cbDelay
    if cbAction = Action.Shutdown then TickOut.ret
    else TickOut.cont now d1
  else TickOut.cont lastTick delay

/-- Wait error classification: EINTR versus anything else. -/
inductive PollErr where
  | eintr
  | other
deriving DecidableEq, Repr

/-- Linux poll.wait (src/unnamed/part_000 lines 63-80): after EpollWait
returns (n, err), panic unless err is nil or EINTR, then collect the first
n event fds (none when n = -1, the Go error return). Option.none models the
panic. -/
def pollWaitLinux (n : Int) (err : Option PollErr) (events : List Int) :
    Option (List Int) :=
  if err ≠ Option.none ∧ err ≠ Option.some PollErr.eintr then Option.none
  else Option.some (events.take n.toNat)

/-- BSD poll.wait (src/evio.go lines 529-548): same wait logic via Kevent,
additionally resetting the queued change list to length 0. The result pairs
the collected event fds with the new change list. -/
def pollWaitBsd (n : Int) (err : Option PollErr) (events changes : List Int) :
    Option (List Int × List Int) :=
  if err ≠ Option.none ∧ err ≠ Option.some PollErr.eintr then Option.none
  else Option.some (events.take n.toNat, changes.take 0)

/-- Unsent byte count of a connection, the Go expression
len(c.out) - c.oidx as an Int. -/
def unsent (c : conn) : Int := (c.out.length : Int) - c.oidx

/-- One direction of the write-flag invariant: whenever unsent output
remains, the write flag is set. -/
def writeCovers (c : conn) : Prop := 0 < unsent c → c.write = true

/-- Action ordering on the Go int values. -/
def actLe (a b : Action) : Prop := a.val ≤ b.val

/-- Association-list lookup mirroring the Go map read conns[fd], restricted
to the key; connections are tracked by a ghost identity (a Nat) so that the
exactly-once accounting of the Closed callback is about connections, not
about reusable descriptor numbers. -/
def lookupId : List (Int × Nat) → Int → Option Nat
  | [], _ => Option.none
  | p :: rest, fd => if p.fst = fd then Option.some p.snd else lookupId rest fd

/-- Deletion mirroring the Go delete(conns, fd). -/
def removeFd : List (Int × Nat) → Int → List (Int × Nat)
  | [], _ => []
  | p :: rest, fd => if p.fst = fd then removeFd rest fd else p :: removeFd rest fd

/-- Map-and-accounting state of one run of Serve: the conns map (fd to ghost
connection id), the next fresh id, the ids of accepted connections, and the
ids for which the Closed callback has been invoked, in invocation order. -/
structure LoopState where
  conns : List (Int × Nat)
  nextId : Nat
  accepted : List Nat
  closedCalls : List Nat
deriving DecidableEq, Repr

/-- State of Serve at entry of the event loop: empty map, nothing accepted,
no Closed invocation yet. -/
def initLoopState : LoopState :=
  { conns := [], nextId := 0, accepted := [], closedCalls := [] }

/-- Steps of the loop that touch the conns map or invoke Closed: a
successful accept that inserts a fresh connection (src/evio.go lines
249-252), the finalize branch that deletes the entry and then invokes
Closed (lines 296-306), and every other step (reads, drains, ticks, failed
accepts), which leaves both untouched. -/
inductive LoopStep where
  | accept (fd : Int)
  | finalize (fd : Int)
  | idle
deriving DecidableEq, Repr

/-- Effect of one loop step on the accounting state. hasCb records whether
events.Closed is configured; the finalize branch invokes it only then. -/
def stepRun (hasCb : Bool) (s : LoopState) : LoopStep → LoopState
  | LoopStep.accept fd =>
    { conns := (fd, s.nextId) :: s.conns, nextId := s.nextId + 1,
      accepted := s.nextId :: s.accepted, closedCalls := s.closedCalls }
  | LoopStep.finalize fd =>
    match lookupId s.conns fd with
    | Option.none => s
    | Option.some id =>
      { s with conns := removeFd s.conns fd,
               closedCalls := s.closedCalls ++ (if hasCb then [id] else []) }
  | LoopStep.idle => s

/-- Run of a sequence of loop steps. -/
def runSteps (hasCb : Bool) : LoopState → List LoopStep → LoopState
  | s, [] => s
  | s, st :: rest => runSteps hasCb (stepRun hasCb s st) rest

/-- Teardown at loop exit (src/evio.go lines 199-208): every entry still in
the map is closed and, when events.Closed is configured, receives one
Closed invocation. -/
def teardownRun (hasCb : Bool) (s : LoopState) : LoopState :=
  { s with conns := [],
           closedCalls := s.closedCalls ++ (if hasCb then s.conns.map Prod.snd else []) }

/-- Well-formedness of a step sequence against the OS contract: an accepted
descriptor is a freshly allocated fd, hence not currently a key of the map
(every key is an open fd), and the finalize branch only runs for a
descriptor the dispatch found in the map. -/
def wfSteps : LoopState → List LoopStep → Bool
  | _, [] => true
  | s, LoopStep.accept fd :: rest =>
    (lookupId s.conns fd).isNone && wfSteps (stepRun true s (LoopStep.accept fd)) rest
  | s, LoopStep.finalize fd :: rest =>
    (lookupId s.conns fd).isSome && wfSteps (stepRun true s (LoopStep.finalize fd)) rest
  | s, LoopStep.idle :: rest => wfSteps s rest

/-- Ids of the connections currently in the map. -/
def liveIds (s : LoopState) : List Nat := s.conns.map Prod.snd

/-- Accounting invariant of the loop: accepted ids are pairwise distinct,
map keys are pairwise distinct, the Closed invocations so far together with
the live connections are exactly the accepted connections, and every
accepted id is below the fresh-id counter. -/
def InvC6 (s : LoopState) : Prop :=
  s.accepted.Nodup ∧
  (s.conns.map Prod.fst).Nodup ∧
  (s.closedCalls ++ liveIds s).Perm s.accepted ∧
  (∀ id ∈ s.accepted, id < s.nextId)

/-- Connection used in the C1 failing batch: still keyed under descriptor 3,
while descriptor 7 was already finalized and deleted from the map. -/
def strayConn : conn :=
  { write := true, fd := 3, oidx := 0, out := [], outCap := 0,
    action := Action.Close, poll := true }

/-- Connection with two unsent bytes about to hit a would-block write. -/
def eagainConn : conn :=
  { write := true, fd := 4, oidx := 0, out := [1, 2], outCap := 2,
    action := Action.None, poll := true }

/-- Live connection with empty buffer, action None, write flag clear. -/
def idleConn : conn :=
  { write := false, fd := 5, oidx := 0, out := [], outCap := 0,
    action := Action.None, poll := true }

/-- Live connection like idleConn, used for the C7 counterexample. -/
def idleConn7 : conn :=
  { write := false, fd := 17, oidx := 0, out := [], outCap := 0,
    action := Action.None, poll := true }

/-- Fully drained connection with pending action Shutdown. -/
def shutdownConn : conn :=
  { write := true, fd := 13, oidx := 0, out := [], outCap := 0,
    action := Action.Shutdown, poll := true }

/-- Live connection with empty buffer and action None, on which a Data
callback calls Close before returning output. -/
def cbConn : conn :=
  { write := false, fd := 11, oidx := 0, out := [], outCap := 0,
    action := Action.None, poll := true }

/-- Connection with two unsent bytes that a single successful write drains. -/
def drainConn : conn :=
  { write := true, fd := 9, oidx := 0, out := [7, 8], outCap := 2,
    action := Action.None, poll := true }

/-- Live connection with one unsent byte and the write flag set. -/
def busyConn : conn :=
  { write := true, fd := 1, oidx := 0, out := [3], outCap := 1,
    action := Action.None, poll := true }

/-- C1: the dispatch step does not skip a ready descriptor whose connection
is missing from the map. At the failing input — a ready batch that reports
descriptor 7 again after its connection was finalized earlier in the same
batch, so the map holds only descriptor 3 — conns[7] is a nil pointer and
the first test len(c.out)-c.oidx dereferences it: a runtime panic, not a
skip. -/
theorem c1_dispatch_missing_key_panics :
    dispatchBranch [((3 : Int), strayConn)] 7 = DispatchBranch.panicked := by
  decide

/-- C2: the drain loop does not stop when syscall.Write returns EAGAIN. The
break sits inside the non-EAGAIN arm only, so the EAGAIN outcome falls
through to oidx += n with the syscall's n = -1 and the loop re-enters; the
re-evaluated slice c.out[c.oidx:] with cursor -1 then panics. The claimed
behavior — leave the loop iteration at the first EAGAIN with no further
write attempt — never happens. -/
theorem c2_drain_continues_past_eagain :
    drainLoop [WriteRes.eagain] eagainConn = DrainOut.panicked := by
  decide

/-- C9: when the tick deadline has elapsed, a Shutdown action returned by
the Tick callback makes Serve return nil immediately, and a negative
returned delay is adopted as 0 so that the next wait does not block. -/
theorem c9_tick_clamp_and_shutdown (lastTick delay now cbDelay : Int) (cbAction : Action)
    (hfire : delay < now - lastTick) :
    (cbAction = Action.Shutdown → tickStep lastTick delay now cbDelay cbAction = TickOut.ret) ∧
    (cbAction ≠ Action.Shutdown → cbDelay < 0 →
      tickStep lastTick delay now cbDelay cbAction = TickOut.cont now 0) := by
  constructor
  · intro hs
    simp [tickStep, hfire, hs]
  · intro hs hd
    simp [tickStep, hfire, hs, hd]

/-- Witness for C9 at a concrete elapsed tick: delay -10 with Shutdown
returns, and delay -10 with None continues with delay 0. -/
theorem c9_tick_witness :
    tickStep 0 0 1 (-10) Action.Shutdown = TickOut.ret ∧
    tickStep 0 0 1 (-10) Action.None = TickOut.cont 1 0 :=
  ⟨(c9_tick_clamp_and_shutdown 0 0 1 (-10) Action.Shutdown (by decide)).1 rfl,
   (c9_tick_clamp_and_shutdown 0 0 1 (-10) Action.None (by decide)).2 (by decide) (by decide)⟩

/-- C10: on EINTR both backends return an empty ready list without error
(the Go syscall wrapper reports n = -1 with the error, so the collection
loop runs zero times), and any other wait error panics. The empty list
makes the loop body iterate over nothing and proceed to the next
iteration. -/
theorem c10_wait_eintr_empty_other_fatal (n : Int) (events changes : List Int)
    (hn : n = -1) :
    pollWaitLinux n (Option.some PollErr.eintr) events = Option.some [] ∧
    pollWaitBsd n (Option.some PollErr.eintr) events changes = Option.some ([], []) ∧
    pollWaitLinux n (Option.some PollErr.other) events = Option.none ∧
    pollWaitBsd n (Option.some PollErr.other) events changes = Option.none := by
  subst hn
  refine ⟨?_, ?_, ?_, ?_⟩ <;> simp [pollWaitLinux, pollWaitBsd]

/-- Witness for C10 at a concrete wait outcome with pending events in the
buffer and a queued change entry. -/
theorem c10_wait_witness :
    pollWaitLinux (-1) (Option.some PollErr.eintr) [8, 9] = Option.some [] ∧
    pollWaitBsd (-1) (Option.some PollErr.eintr) [8, 9] [5] = Option.some ([], []) ∧
    pollWaitLinux (-1) (Option.some PollErr.other) [8, 9] = Option.none ∧
    pollWaitBsd (-1) (Option.some PollErr.other) [8, 9] [5] = Option.none :=
  c10_wait_eintr_empty_other_fatal (-1) [8, 9] [5] rfl

/-- C3 counterexample: Conn.Write with an empty slice on a live connection
with empty buffer, action None and clear write flag sets the
write-registered flag even though the buffer stays empty and the action
stays None, refuting the claimed iff and its in-particular clause. -/
theorem c3_counterexample :
    (conn.Write idleConn []).write = true ∧ (conn.Write idleConn []).out = [] ∧
    (conn.Write idleConn []).action = Action.None ∧ idleConn.write = false := by
  decide

/-- C7 counterexample: Conn.Write with an empty slice is not a no-op on a
live connection whose write flag is clear and whose action is None: the
write-registered flag flips to true (and the poller registration is
promoted to read-write by the same branch). -/
theorem c7_counterexample :
    (conn.Write idleConn7 []).write = true ∧ idleConn7.write = false := by
  decide

/-- C4 counterexample: finalizing a drained connection whose action is
Shutdown with no Closed callback configured neither fires a closed callback
nor sets the loop's shutdown flag — the loop keeps running, refuting
termination regardless of the configured callbacks. -/
theorem c4_counterexample :
    (finalizeStep false Action.None shutdownConn).shutdownSet = false ∧
    (finalizeStep false Action.None shutdownConn).closedInvoked = false ∧
    shutdownConn.action = Action.Shutdown := by
  decide

/-- C5 counterexample: a Data (or Opened) callback that calls Close on its
connection and then returns non-empty output with action None makes the
recorded action decrease: Close is recorded during the callback, and the
return handling stores the returned None over it. -/
theorem c5_counterexample :
    (conn.Close cbConn).action = Action.Close ∧
    (handleCbReturn (conn.Close cbConn) [9] Action.None).action = Action.None := by
  decide

/-- Field effect of the drain-branch cleanup: cursor 0, buffer emptied,
capacity released above 4096 and kept otherwise, action preserved, and the
write flag cleared exactly when the action is None. -/
theorem drainFinish_spec (c : conn) :
    (drainFinish c).oidx = 0 ∧ (drainFinish c).out = [] ∧
    (drainFinish c).outCap = (if 4096 < c.outCap then 0 else c.outCap) ∧
    (drainFinish c).action = c.action ∧
    (drainFinish c).write = (if c.action = Action.None then false else c.write) := by
  unfold drainFinish
  by_cases h1 : 4096 < c.outCap <;> by_cases h2 : c.action = Action.None <;>
    simp [h1, h2]

/-- Every normal exit of the drain loop goes through drainFinish, applied to
a state with the same capacity and write flag as the entry state and a
possibly escalated action. -/
theorem drainLoop_finished_shape (rs : List WriteRes) (c c' : conn)
    (h : drainLoop rs c = DrainOut.finished c') :
    ∃ c0 : conn, c' = drainFinish c0 ∧ c0.outCap = c.outCap ∧
      c0.write = c.write ∧ c.action.val ≤ c0.action.val := by
  induction rs generalizing c with
  | nil =>
    unfold drainLoop at h
    split at h <;> simp at h
  | cons r rest ih =>
    unfold drainLoop at h
    split at h
    · simp at h
    · cases r with
      | err =>
        simp only [DrainOut.finished.injEq] at h
        by_cases ha : c.action.val < Action.Close.val
        · refine ⟨{ c with action := Action.Close }, ?_, rfl, rfl, ?_⟩
          · rw [← h]
            simp [ha]
          · have ha' : c.action.val < 1 := ha
            have hv : ({ c with action := Action.Close } : conn).action.val = 1 := rfl
            rw [hv]
            omega
        · refine ⟨c, ?_, rfl, rfl, Nat.le_refl _⟩
          rw [← h]
          simp [ha]
      | ok n =>
        simp only [] at h
        split at h
        · obtain ⟨c0, h1, h2, h3, h4⟩ := ih _ h
          exact ⟨c0, h1, by simpa using h2, by simpa using h3, by simpa using h4⟩
        · simp only [DrainOut.finished.injEq] at h
          exact ⟨_, h.symm, rfl, rfl, Nat.le_refl _⟩
      | eagain =>
        simp only [] at h
        split at h
        · obtain ⟨c0, h1, h2, h3, h4⟩ := ih _ h
          exact ⟨c0, h1, by simpa using h2, by simpa using h3, by simpa using h4⟩
        · simp only [DrainOut.finished.injEq] at h
          exact ⟨_, h.symm, rfl, rfl, Nat.le_refl _⟩

/-- C8: whenever the drain branch finishes — by a full drain or by a
non-EAGAIN write error — the connection leaves with its cursor reset to 0
and its output buffer emptied: the backing array is released when its
capacity exceeded 4096 bytes and truncated to length 0 otherwise, so bytes
undelivered before a write error are discarded and never retried. -/
theorem c8_drain_resets_output (rs : List WriteRes) (c c' : conn)
    (h : drainLoop rs c = DrainOut.finished c') :
    c'.oidx = 0 ∧ c'.out = [] ∧
    c'.outCap = (if 4096 < c.outCap then 0 else c.outCap) := by
  obtain ⟨c0, rfl, hcap, -, -⟩ := drainLoop_finished_shape rs c c' h
  obtain ⟨h1, h2, h3, -, -⟩ := drainFinish_spec c0
  exact ⟨h1, h2, by rw [h3, hcap]⟩

/-- Witness for C8 at a concrete input: both bytes of drainConn are written
by one successful syscall; the finished state has cursor 0 and an empty
buffer whose small capacity is kept. -/
theorem c8_drain_witness :
    (drainFinish { drainConn with oidx := 2 }).oidx = 0 ∧
    (drainFinish { drainConn with oidx := 2 }).out = [] ∧
    (drainFinish { drainConn with oidx := 2 }).outCap =
      (if 4096 < drainConn.outCap then 0 else drainConn.outCap) :=
  c8_drain_resets_output [WriteRes.ok 2] drainConn (drainFinish { drainConn with oidx := 2 })
    (by decide)

/-- Every code path of conn.Close either leaves the connection unchanged or
leaves the write flag set. -/
theorem connClose_write_or_id (c : conn) :
    conn.Close c = c ∨ (conn.Close c).write = true := by
  unfold conn.Close
  by_cases h1 : c.poll = false
  · simp [h1]
  · by_cases h2 : c.action = Action.None <;> by_cases h3 : c.write = false <;>
      simp [h1, h2, h3]

/-- Every code path of conn.Write either leaves the connection unchanged or
leaves the write flag set. -/
theorem connWrite_write_or_id (c : conn) (data : List Nat) :
    conn.Write c data = c ∨ (conn.Write c data).write = true := by
  unfold conn.Write
  by_cases h1 : c.poll = false
  · simp [h1]
  · by_cases h2 : c.action = Action.None <;> by_cases h3 : c.write = false <;>
      simp [h1, h2, h3]

/-- Every code path of the callback return handling either leaves the
connection unchanged or leaves the write flag set. -/
theorem handleCbReturn_write_or_id (c : conn) (outb : List Nat) (a : Action) :
    handleCbReturn c outb a = c ∨ (handleCbReturn c outb a).write = true := by
  unfold handleCbReturn
  split_ifs <;> simp

/-- conn.Close either keeps the action or raises it from None to Close. -/
theorem connClose_action (c : conn) :
    (conn.Close c).action = c.action ∨
    (c.action = Action.None ∧ (conn.Close c).action = Action.Close) := by
  unfold conn.Close
  by_cases h1 : c.poll = false
  · simp [h1]
  · by_cases h2 : c.action = Action.None <;> by_cases h3 : c.write = false <;>
      simp [h1, h2, h3]

/-- conn.Write never changes the action. -/
theorem connWrite_action (c : conn) (data : List Nat) :
    (conn.Write c data).action = c.action := by
  cases connWrite_write_or_id c data with
  | inl h => rw [h]
  | inr _ =>
    unfold conn.Write
    by_cases h1 : c.poll = false
    · simp [h1]
    · by_cases h2 : c.action = Action.None <;> by_cases h3 : c.write = false <;>
        simp [h1, h2, h3]

/-- Read-branch escalation touches only the action field. -/
theorem readEscalate_fields (c : conn) (r : ReadRes) :
    (readEscalate c r).write = c.write ∧ (readEscalate c r).out = c.out ∧
    (readEscalate c r).oidx = c.oidx := by
  cases r <;> simp [readEscalate]

/-- C3 amended: the forward half of the invariant holds and is preserved by
every embedded operation — whenever a connection has unsent output its
write flag is set. The reverse iff fails in exactly the two ways the code
exhibits: Conn.Write with an empty slice sets the flag with an empty buffer
and action None, and the read-branch error escalation records action Close
without registering for write events. -/
theorem c3_amended_flag_covers (c c' : conn) (data outb : List Nat) (a : Action)
    (r : ReadRes) (rs : List WriteRes) (hc : writeCovers c) :
    writeCovers (conn.Close c) ∧ writeCovers (conn.Write c data) ∧
    writeCovers (handleCbReturn c outb a) ∧ writeCovers (readEscalate c r) ∧
    (drainLoop rs c = DrainOut.finished c' → writeCovers c') := by
  refine ⟨?_, ?_, ?_, ?_, ?_⟩
  · intro hu
    cases connClose_write_or_id c with
    | inl h => rw [h] at hu ⊢; exact hc hu
    | inr h => exact h
  · intro hu
    cases connWrite_write_or_id c data with
    | inl h => rw [h] at hu ⊢; exact hc hu
    | inr h => exact h
  · intro hu
    cases handleCbReturn_write_or_id c outb a with
    | inl h => rw [h] at hu ⊢; exact hc hu
    | inr h => exact h
  · intro hu
    obtain ⟨hw, ho, hi⟩ := readEscalate_fields c r
    rw [hw]
    apply hc
    simp only [unsent, ho, hi] at hu
    exact hu
  · intro h
    obtain ⟨c0, rfl, -, -, -⟩ := drainLoop_finished_shape rs c c' h
    obtain ⟨h1, h2, -, -, -⟩ := drainFinish_spec c0
    intro hu
    simp only [unsent, h1, h2] at hu
    simp at hu

/-- Witness for C3 amended at a concrete live connection with one unsent
byte: after Close, after a non-empty Write, after a data-callback return
and after a read escalation the write flag is set. -/
theorem c3_amended_witness :
    (conn.Close busyConn).write = true ∧ (conn.Write busyConn [6]).write = true ∧
    (handleCbReturn busyConn [6] Action.None).write = true ∧
    (readEscalate busyConn ReadRes.eof).write = true :=
  ⟨(c3_amended_flag_covers busyConn busyConn [6] [6] Action.None ReadRes.eof []
      (fun _ => rfl)).1 (by decide),
   (c3_amended_flag_covers busyConn busyConn [6] [6] Action.None ReadRes.eof []
      (fun _ => rfl)).2.1 (by decide),
   (c3_amended_flag_covers busyConn busyConn [6] [6] Action.None ReadRes.eof []
      (fun _ => rfl)).2.2.1 (by decide),
   (c3_amended_flag_covers busyConn busyConn [6] [6] Action.None ReadRes.eof []
      (fun _ => rfl)).2.2.2.1 (by decide)⟩

/-- C4 amended: finalizing a drained connection whose pending action is
Shutdown terminates the loop provided a Closed callback is configured (the
shutdown test is nested inside the callback invocation); the callback fires
and the shutdown flag is set whatever action the callback returns. -/
theorem c4_amended_shutdown_with_callback (cbRet : Action) (c : conn)
    (h : c.action = Action.Shutdown) :
    (finalizeStep true cbRet c).shutdownSet = true ∧
    (finalizeStep true cbRet c).closedInvoked = true := by
  simp [finalizeStep, h]

/-- Witness for C4 amended at the concrete drained Shutdown connection with
a Closed callback returning None. -/
theorem c4_amended_witness :
    (finalizeStep true Action.None shutdownConn).shutdownSet = true ∧
    (finalizeStep true Action.None shutdownConn).closedInvoked = true :=
  c4_amended_shutdown_with_callback Action.None shutdownConn rfl

/-- C5 amended: the recorded action is monotone across Conn.Close,
Conn.Write, the read-branch escalation and the whole drain branch, and
across the opened/data return handling when the callback left the action at
its branch-entry value None; the one decrease the code allows is the
unconditional store of the returned action in that return handling after
the callback itself escalated the action via Close. -/
theorem c5_amended_action_monotone (c c' : conn) (d outb : List Nat) (r : ReadRes)
    (a : Action) (rs : List WriteRes) :
    actLe c.action (conn.Close c).action ∧
    actLe c.action (conn.Write c d).action ∧
    (c.action = Action.None → actLe c.action (readEscalate c r).action) ∧
    (c.action = Action.None → actLe c.action (handleCbReturn c outb a).action) ∧
    (drainLoop rs c = DrainOut.finished c' → actLe c.action c'.action) := by
  refine ⟨?_, ?_, ?_, ?_, ?_⟩
  · cases connClose_action c with
    | inl h =>
      unfold actLe
      rw [h]
    | inr h =>
      unfold actLe
      rw [h.1, h.2]
      exact Nat.zero_le _
  · unfold actLe
    rw [connWrite_action c d]
  · intro h
    unfold actLe
    rw [h]
    exact Nat.zero_le _
  · intro h
    unfold actLe
    rw [h]
    exact Nat.zero_le _
  · intro h
    obtain ⟨c0, rfl, -, -, hact⟩ := drainLoop_finished_shape rs c c' h
    obtain ⟨-, -, -, h4, -⟩ := drainFinish_spec c0
    unfold actLe
    rw [h4]
    exact hact

/-- Witness for C5 amended at concrete inputs: Close from None, a read
escalation from None, a callback return from None, and a full drain that
keeps the action. -/
theorem c5_amended_witness :
    actLe cbConn.action (conn.Close cbConn).action ∧
    actLe cbConn.action (readEscalate cbConn ReadRes.eof).action ∧
    actLe cbConn.action (handleCbReturn cbConn [1] Action.Close).action ∧
    actLe drainConn.action (drainFinish { drainConn with oidx := 2 }).action :=
  ⟨(c5_amended_action_monotone cbConn cbConn [] [1] ReadRes.eof Action.Close []).1,
   (c5_amended_action_monotone cbConn cbConn [] [1] ReadRes.eof Action.Close []).2.2.1 rfl,
   (c5_amended_action_monotone cbConn cbConn [] [1] ReadRes.eof Action.Close []).2.2.2.1 rfl,
   (c5_amended_action_monotone drainConn (drainFinish { drainConn with oidx := 2 }) [] [1]
      ReadRes.eof Action.Close [WriteRes.ok 2]).2.2.2.2 (by decide)⟩

/-- C7 amended: Conn.Write with an empty slice leaves the output buffer,
the write cursor and the pending action unchanged, and is a complete no-op
when the write flag is already set, the action is not None, or the
connection is finalized; but on a live connection with action None and a
clear write flag it sets the write-registered flag and promotes the poller
registration to read-write. -/
theorem c7_amended_empty_write (c : conn) (hcap : c.out.length ≤ c.outCap) :
    (conn.Write c []).out = c.out ∧ (conn.Write c []).oidx = c.oidx ∧
    (conn.Write c []).action = c.action ∧
    ((c.write = true ∨ c.action ≠ Action.None ∨ c.poll = false) → conn.Write c [] = c) ∧
    (c.poll = true → c.action = Action.None → (conn.Write c []).write = true) := by
  have hcases : conn.Write c [] = c ∨ conn.Write c [] = { c with write := true } := by
    obtain ⟨w, fd, oidx, outl, outCap, action, poll⟩ := c
    unfold conn.Write
    by_cases h1 : poll = false
    · simp [h1]
    · by_cases h2 : action = Action.None
      · by_cases h3 : w = false
        · right
          simp_all [appendCap]
        · left
          simp_all [appendCap]
      · simp [h1, h2]
  refine ⟨?_, ?_, ?_, ?_, ?_⟩
  · cases hcases with
    | inl h => rw [h]
    | inr h => rw [h]
  · cases hcases with
    | inl h => rw [h]
    | inr h => rw [h]
  · cases hcases with
    | inl h => rw [h]
    | inr h => rw [h]
  · intro hcase
    rcases hcase with hw | hrest
    · cases hcases with
      | inl h => exact h
      | inr h =>
        rw [h]
        cases c
        simp_all
    · unfold conn.Write
      rcases hrest with h | h
      · by_cases h1 : c.poll = false <;> simp [h1, h]
      · simp [h]
  · intro h1 h2
    unfold conn.Write
    by_cases h3 : c.write = false <;> simp [h1, h2, h3]

/-- Witness for C7 amended: on busyConn (flag already set) the empty write
changes nothing at all, and its write flag stays true. -/
theorem c7_amended_witness :
    conn.Write busyConn [] = busyConn ∧ (conn.Write busyConn []).write = true :=
  ⟨(c7_amended_empty_write busyConn (by decide)).2.2.2.1 (Or.inl rfl),
   (c7_amended_empty_write busyConn (by decide)).2.2.2.2 rfl rfl⟩

/-- Lookup failure is exactly absence of the key. -/
theorem lookupId_eq_none_iff (l : List (Int × Nat)) (fd : Int) :
    lookupId l fd = Option.none ↔ fd ∉ l.map Prod.fst := by
  induction l with
  | nil => simp [lookupId]
  | cons p rest ih =>
    simp only [lookupId, List.map_cons, List.mem_cons]
    by_cases h : p.fst = fd
    · simp [h]
    · rw [if_neg h, ih]
      constructor
      · intro hn hmem
        rcases hmem with h1 | h2
        · exact h h1.symm
        · exact hn h2
      · intro hn hmem
        exact hn (Or.inr hmem)

/-- Deleting a key yields a sublist of the map. -/
theorem removeFd_sublist (l : List (Int × Nat)) (fd : Int) :
    (removeFd l fd).Sublist l := by
  induction l with
  | nil => simp [removeFd]
  | cons p rest ih =>
    simp only [removeFd]
    by_cases h : p.fst = fd
    · rw [if_pos h]
      exact ih.cons p
    · rw [if_neg h]
      exact ih.cons₂ p

/-- Deleting an absent key changes nothing. -/
theorem removeFd_of_not_mem (l : List (Int × Nat)) (fd : Int)
    (h : fd ∉ l.map Prod.fst) : removeFd l fd = l := by
  induction l with
  | nil => rfl
  | cons p rest ih =>
    simp only [List.map_cons, List.mem_cons] at h
    push_neg at h
    simp only [removeFd]
    rw [if_neg (fun he => h.1 he.symm), ih h.2]

/-- With pairwise-distinct keys, a map containing fd with value id is a
permutation of that pair consed onto the map with fd deleted. -/
theorem removeFd_perm (l : List (Int × Nat)) (fd : Int) (id : Nat)
    (hnd : (l.map Prod.fst).Nodup) (h : lookupId l fd = Option.some id) :
    l.Perm ((fd, id) :: removeFd l fd) := by
  induction l with
  | nil => simp [lookupId] at h
  | cons p rest ih =>
    obtain ⟨pf, ps⟩ := p
    simp only [List.map_cons, List.nodup_cons] at hnd
    by_cases hp : pf = fd
    · subst hp
      simp only [lookupId, if_pos rfl] at h
      injection h with h
      subst h
      have hr : removeFd ((pf, ps) :: rest) pf = removeFd rest pf := by
        simp [removeFd]
      rw [hr, removeFd_of_not_mem rest pf hnd.1]
    · simp only [lookupId, if_neg hp] at h
      have htail := ih hnd.2 h
      have hr : removeFd ((pf, ps) :: rest) fd = (pf, ps) :: removeFd rest fd := by
        simp [removeFd, hp]
      rw [hr]
      exact List.Perm.trans (htail.cons (pf, ps)) (List.Perm.swap (fd, id) (pf, ps) _)

/-- The accounting invariant holds at loop entry. -/
theorem initLoopState_inv : InvC6 initLoopState := by
  refine ⟨List.nodup_nil, List.nodup_nil, ?_, ?_⟩ <;> simp [initLoopState, liveIds]

/-- A well-formed accept preserves the accounting invariant. -/
theorem accept_inv (s : LoopState) (fd : Int) (hInv : InvC6 s)
    (hfd : lookupId s.conns fd = Option.none) :
    InvC6 (stepRun true s (LoopStep.accept fd)) := by
  obtain ⟨hnd, hkey, hperm, hbound⟩ := hInv
  have hfresh : s.nextId ∉ s.accepted := fun hmem =>
    Nat.lt_irrefl s.nextId (hbound s.nextId hmem)
  refine ⟨?_, ?_, ?_, ?_⟩
  · exact List.nodup_cons.mpr ⟨hfresh, hnd⟩
  · simp only [stepRun, List.map_cons, List.nodup_cons]
    exact ⟨(lookupId_eq_none_iff s.conns fd).mp hfd, hkey⟩
  · simp only [stepRun, liveIds, List.map_cons]
    exact List.Perm.trans List.perm_middle (hperm.cons s.nextId)
  · intro id hid
    simp only [stepRun, List.mem_cons] at hid
    simp only [stepRun]
    rcases hid with h | h
    · rw [h]
      exact Nat.lt_succ_self _
    · exact Nat.lt_trans (hbound id h) (Nat.lt_succ_self _)

/-- A well-formed finalize preserves the accounting invariant. -/
theorem finalize_inv (s : LoopState) (fd : Int) (hInv : InvC6 s)
    (hfd : (lookupId s.conns fd).isSome = true) :
    InvC6 (stepRun true s (LoopStep.finalize fd)) := by
  obtain ⟨hnd, hkey, hperm, hbound⟩ := hInv
  obtain ⟨id, hid⟩ := Option.isSome_iff_exists.mp hfd
  have hperm2 := removeFd_perm s.conns fd id hkey hid
  refine ⟨?_, ?_, ?_, ?_⟩
  · simpa [stepRun, hid] using hnd
  · have hsub : ((removeFd s.conns fd).map Prod.fst).Sublist (s.conns.map Prod.fst) :=
      (removeFd_sublist s.conns fd).map Prod.fst
    simpa [stepRun, hid] using hkey.sublist hsub
  · have hlive : (liveIds s).Perm (id :: (removeFd s.conns fd).map Prod.snd) := by
      simpa [liveIds] using hperm2.map Prod.snd
    have h1 : (stepRun true s (LoopStep.finalize fd)).closedCalls
        = s.closedCalls ++ [id] := by
      simp [stepRun, hid]
    have h2 : liveIds (stepRun true s (LoopStep.finalize fd))
        = (removeFd s.conns fd).map Prod.snd := by
      simp [stepRun, hid, liveIds]
    have h4 : (stepRun true s (LoopStep.finalize fd)).accepted = s.accepted := by
      simp [stepRun, hid]
    rw [h1, h2, h4, List.append_assoc]
    have h3 : [id] ++ (removeFd s.conns fd).map Prod.snd
        = id :: (removeFd s.conns fd).map Prod.snd := rfl
    rw [h3]
    exact List.Perm.trans (hlive.symm.append_left s.closedCalls) hperm
  · simpa [stepRun, hid] using hbound

/-- Running a well-formed step sequence preserves the accounting
invariant. -/
theorem runSteps_inv (steps : List LoopStep) (s : LoopState) (hInv : InvC6 s)
    (hwf : wfSteps s steps = true) : InvC6 (runSteps true s steps) := by
  induction steps generalizing s with
  | nil => exact hInv
  | cons st rest ih =>
    cases st with
    | accept fd =>
      simp only [wfSteps, Bool.and_eq_true] at hwf
      exact ih _ (accept_inv s fd hInv (Option.isNone_iff_eq_none.mp hwf.1)) hwf.2
    | finalize fd =>
      simp only [wfSteps, Bool.and_eq_true] at hwf
      exact ih _ (finalize_inv s fd hInv hwf.1) hwf.2
    | idle =>
      simp only [wfSteps] at hwf
      exact ih _ hInv hwf

/-- C6: with a Closed callback configured, every connection accepted during
a well-formed run receives exactly one Closed invocation over the whole run
of Serve — on the in-loop finalize path (which deletes the map entry before
invoking the callback) or on teardown for entries still in the map at loop
exit, never both and never twice. -/
theorem c6_closed_called_exactly_once (steps : List LoopStep) (id : Nat)
    (hwf : wfSteps initLoopState steps = true)
    (hid : id ∈ (runSteps true initLoopState steps).accepted) :
    ((teardownRun true (runSteps true initLoopState steps)).closedCalls).count id = 1 := by
  obtain ⟨hnd, -, hperm, -⟩ := runSteps_inv steps initLoopState initLoopState_inv hwf
  have hclosed : (teardownRun true (runSteps true initLoopState steps)).closedCalls
      = (runSteps true initLoopState steps).closedCalls
        ++ liveIds (runSteps true initLoopState steps) := by
    simp [teardownRun, liveIds]
  rw [hclosed, hperm.count_eq id]
  exact List.count_eq_one_of_mem hnd hid

/-- Witness for C6 at a concrete run: two accepts, one in-loop finalize of
descriptor 4; connection 0 is closed in the loop, connection 1 at teardown,
each exactly once. -/
theorem c6_closed_once_witness :
    ((teardownRun true (runSteps true initLoopState
        [LoopStep.accept 4, LoopStep.accept 5, LoopStep.finalize 4])).closedCalls).count 0
      = 1 :=
  c6_closed_called_exactly_once [LoopStep.accept 4, LoopStep.accept 5, LoopStep.finalize 4] 0
    (by decide) (by decide)

end EvioLite
